import Mathlib

/-
Shallow embedding of the AQI core of `src/main.py` (Metro Manila air-quality
service).  Real numbers of the Python source are modelled as rationals;
Python dicts keyed by strings are modelled as association lists or fixed
record types; `None` is modelled by `Option`.
-/

/-- A breakpoint segment `(Conc_low, Conc_high, I_low, I_high)` of the
`AQI_BREAKPOINTS` table in `src/main.py`. -/
structure Seg where
  Clow : ℚ
  Chigh : ℚ
  Ilow : ℚ
  Ihigh : ℚ
deriving DecidableEq, Repr

/-- The pm25 entry of the `AQI_BREAKPOINTS` dict (μg/m3). -/
def pm25Bps : List Seg :=
  [⟨0.0, 12.0, 0, 50⟩, ⟨12.1, 35.4, 51, 100⟩, ⟨35.5, 55.4, 101, 150⟩,
   ⟨55.5, 150.4, 151, 200⟩, ⟨150.5, 250.4, 201, 300⟩, ⟨250.5, 350.4, 301, 400⟩,
   ⟨350.5, 500.4, 401, 500⟩]

/-- The pm10 entry of the `AQI_BREAKPOINTS` dict (μg/m3). -/
def pm10Bps : List Seg :=
  [⟨0, 54, 0, 50⟩, ⟨55, 154, 51, 100⟩, ⟨155, 254, 101, 150⟩,
   ⟨255, 354, 151, 200⟩, ⟨355, 424, 201, 300⟩, ⟨425, 504, 301, 400⟩,
   ⟨505, 604, 401, 500⟩]

/-- The o3 entry of the `AQI_BREAKPOINTS` dict (ppb). -/
def o3Bps : List Seg :=
  [⟨0, 54, 0, 50⟩, ⟨55, 70, 51, 100⟩, ⟨71, 85, 101, 150⟩,
   ⟨86, 105, 151, 200⟩, ⟨106, 200, 201, 300⟩]

/-- The co entry of the `AQI_BREAKPOINTS` dict (ppm). -/
def coBps : List Seg :=
  [⟨0.0, 4.4, 0, 50⟩, ⟨4.5, 9.4, 51, 100⟩, ⟨9.5, 12.4, 101, 150⟩,
   ⟨12.5, 15.4, 151, 200⟩, ⟨15.5, 30.4, 201, 300⟩, ⟨30.5, 40.4, 301, 400⟩,
   ⟨40.5, 50.4, 401, 500⟩]

/-- The no2 entry of the `AQI_BREAKPOINTS` dict (ppb). -/
def no2Bps : List Seg :=
  [⟨0, 53, 0, 50⟩, ⟨54, 100, 51, 100⟩, ⟨101, 360, 101, 150⟩,
   ⟨361, 649, 151, 200⟩, ⟨650, 1249, 201, 300⟩, ⟨1250, 1649, 301, 400⟩,
   ⟨1650, 2049, 401, 500⟩]

/-- The so2 entry of the `AQI_BREAKPOINTS` dict (ppb). -/
def so2Bps : List Seg :=
  [⟨0, 35, 0, 50⟩, ⟨36, 75, 51, 100⟩, ⟨76, 185, 101, 150⟩,
   ⟨186, 304, 151, 200⟩, ⟨305, 604, 201, 300⟩, ⟨605, 804, 301, 400⟩,
   ⟨805, 1004, 401, 500⟩]

/-- The `AQI_BREAKPOINTS` dict of `src/main.py`, in its insertion order
(pm25, pm10, o3, co, no2, so2), with the exact published values. -/
def AQI_BREAKPOINTS : List (String × List Seg) :=
  [("pm25", pm25Bps), ("pm10", pm10Bps), ("o3", o3Bps),
   ("co", coBps), ("no2", no2Bps), ("so2", so2Bps)]

/-- The `aqi_category` function of `src/main.py`: threshold lookup with
inclusive upper bounds. -/
def aqi_category (aqi_val : ℚ) : String :=
  if aqi_val ≤ 50 then "Good"
  else if aqi_val ≤ 100 then "Moderate"
  else if aqi_val ≤ 150 then "Unhealthy for Sensitive Groups"
  else if aqi_val ≤ 200 then "Unhealthy"
  else if aqi_val ≤ 300 then "Very Unhealthy"
  else "Hazardous"

/-- The `linear_iaqi` interpolation formula of `src/main.py`. -/
def linear_iaqi (Cp Clow Chigh Ilow Ihigh : ℚ) : ℚ :=
  ((Ihigh - Ilow) / (Chigh - Clow)) * (Cp - Clow) + Ilow

/-- The body of `compute_sub_aqi` once the pollutant's segment list is in
hand: first-match scan of the segments (the `for` loop of `src/main.py`),
then extrapolation from the last segment when the value exceeds every
`Chigh`, otherwise `None`.  (`segs.getLast?` is `none` only for an empty
table entry, which `src/main.py` would crash on; every table entry is
non-empty.) -/
def computeFromSegs (segs : List Seg) (v : ℚ) : Option ℚ :=
  match segs.find? (fun s => decide (s.Clow ≤ v ∧ v ≤ s.Chigh)) with
  | some s => some (max 0 (linear_iaqi v s.Clow s.Chigh s.Ilow s.Ihigh))
  | none =>
    match segs.getLast? with
    | none => none
    | some s =>
      if s.Chigh < v then some (max 0 (linear_iaqi v s.Clow s.Chigh s.Ilow s.Ihigh))
      else none

/-- The `compute_sub_aqi` function of `src/main.py`: `None` for an absent
value or an unrecognized pollutant, else the segment scan. -/
def compute_sub_aqi (pollutant : String) (value : Option ℚ) : Option ℚ :=
  match value with
  | none => none
  | some v =>
    match AQI_BREAKPOINTS.lookup pollutant with
    | none => none
    | some segs => computeFromSegs segs v

/-- Round-half-to-even on rationals, the tie rule of Python's builtin
`round`. -/
def roundHalfEven (q : ℚ) : ℤ :=
  if q - ⌊q⌋ < 1/2 then ⌊q⌋
  else if (1 : ℚ)/2 < q - ⌊q⌋ then ⌊q⌋ + 1
  else if ⌊q⌋ % 2 = 0 then ⌊q⌋ else ⌊q⌋ + 1

/-- Python's `round(x, 1)`: round half to even at one decimal place. -/
def round1 (q : ℚ) : ℚ := (roundHalfEven (q * 10) : ℚ) / 10

/-- A resolved reading set: the 8 recognized fields of `src/main.py`'s
`predict` (the `inputs` dict restricted to the recognized field names);
an absent entry is "unknown". -/
structure ReadingSet where
  pm25 : Option ℚ := none
  pm10 : Option ℚ := none
  no2 : Option ℚ := none
  so2 : Option ℚ := none
  co : Option ℚ := none
  o3 : Option ℚ := none
  temperature : Option ℚ := none
  humidity : Option ℚ := none
deriving DecidableEq, Repr

/-- The empty reading set (the `inputs = {}` starting point). -/
def emptyReadings : ReadingSet := {}

/-- One step of the override loop of `predict`: an explicit request value
overwrites the base value, an absent one leaves it. -/
def overrideField (base expl : Option ℚ) : Option ℚ :=
  match expl with
  | some v => some v
  | none => base

/-- The override loop `for f in [...]: if val is not None: inputs[f] = val`
of `predict`, applied to all 8 recognized fields. -/
def overrideFields (base expl : ReadingSet) : ReadingSet :=
  { pm25 := overrideField base.pm25 expl.pm25
    pm10 := overrideField base.pm10 expl.pm10
    no2 := overrideField base.no2 expl.no2
    so2 := overrideField base.so2 expl.so2
    co := overrideField base.co expl.co
    o3 := overrideField base.o3 expl.o3
    temperature := overrideField base.temperature expl.temperature
    humidity := overrideField base.humidity expl.humidity }

/-- The `dashboard_by_city` store: city name mapped to its stored
`latest_inputs` reading set. -/
abbrev Store := List (String × ReadingSet)

/-- The case-insensitive city lookup loop of `predict`: the first key whose
lowercasing matches the request's city. -/
def findCity (store : Store) (city : String) : Option (String × ReadingSet) :=
  List.find? (fun c => c.1.toLower == city.toLower) store

/-- The input-resolution part of `predict` in `src/main.py`, with the store
threaded explicitly: in the source, `inputs` aliases the stored
`latest_inputs` dict of the matched city, so the override loop writes
through to the store; this is modelled by returning the updated store
alongside the resolved readings.  A falsy city (`None` or `""`) or an
unmatched city starts from a fresh empty dict and leaves the store alone. -/
def predictInputs (city : Option String) (req : ReadingSet) (store : Store) :
    ReadingSet × Store :=
  match city with
  | none => (overrideFields emptyReadings req, store)
  | some c =>
    if c = "" then (overrideFields emptyReadings req, store)
    else
      match findCity store c with
      | none => (overrideFields emptyReadings req, store)
      | some nb =>
        let merged := overrideFields nb.2 req
        (merged, List.map (fun p => if p.1 = nb.1 then (p.1, merged) else p) store)

/-- The keys of the `pollutant_map` dict of `predict`, in insertion order. -/
def POLLUTANTS : List String := ["pm25", "pm10", "no2", "so2", "co", "o3"]

/-- The lookup `inputs.get(key, None)` for the 6 pollutant keys. -/
def readingGet (rs : ReadingSet) : String → Option ℚ
  | "pm25" => rs.pm25
  | "pm10" => rs.pm10
  | "no2" => rs.no2
  | "so2" => rs.so2
  | "co" => rs.co
  | "o3" => rs.o3
  | _ => none

/-- The `sub_aqi` dict built by `predict`: per pollutant key, the sub-index
rounded to one decimal, or `None`. -/
def sub_aqi_list (inputs : ReadingSet) : List (String × Option ℚ) :=
  POLLUTANTS.map fun k => (k, (compute_sub_aqi k (readingGet inputs k)).map round1)

/-- The filter `valid_subs = {k: v for k, v in sub_aqi.items() if v is not None}`,
order preserved. -/
def valid_subs (l : List (String × Option ℚ)) : List (String × ℚ) :=
  l.filterMap fun p => p.2.map fun v => (p.1, v)

/-- Python's `max` over a list of values (`max(valid_subs.values())`);
`none` on the empty list. -/
def listMax : List ℚ → Option ℚ
  | [] => none
  | x :: xs => some (xs.foldl max x)

/-- One comparison step of Python's `max(valid_subs, key=...)`: a later
entry replaces the current best only when strictly greater, so the first
entry attaining the maximum wins. -/
def bestStep (b y : String × ℚ) : String × ℚ := if b.2 < y.2 then y else b

/-- Python's `max(valid_subs, key=...)`: the first entry attaining the
maximal value. -/
def argmaxFirst : List (String × ℚ) → Option (String × ℚ)
  | [] => none
  | x :: xs => some (xs.foldl bestStep x)

/-- The aggregation step of `predict`: overall AQI = max of the remaining
values, main pollutant = first key attaining it; all-absent input yields
all-absent output. -/
def aggregate (l : List (String × Option ℚ)) : Option ℚ × Option String :=
  (listMax ((valid_subs l).map Prod.snd), (argmaxFirst (valid_subs l)).map Prod.fst)

/-- The AQI-related part of the `/predict` response of `src/main.py`. -/
structure AqiOut where
  sub_aqi : List (String × Option ℚ)
  aqi : Option ℚ
  aqi_category : Option String
  main_pollutant : Option String
deriving DecidableEq, Repr

/-- The AQI pipeline of `predict` over resolved inputs: build `sub_aqi`
(rounded per entry), aggregate, compute the category from the aggregate,
round the aggregate once more into the payload. -/
def predictAqiOut (inputs : ReadingSet) : AqiOut :=
  let sub := sub_aqi_list inputs
  let agg := aggregate sub
  { sub_aqi := sub
    aqi := agg.1.map round1
    aqi_category := agg.1.map aqi_category
    main_pollutant := agg.2 }

/-- The whole `/predict` AQI path: resolve inputs (threading the store,
which the source's aliasing can mutate), then run the AQI pipeline. -/
def predictFull (city : Option String) (req : ReadingSet) (store : Store) :
    AqiOut × Store :=
  let r := predictInputs city req store
  (predictAqiOut r.1, r.2)

/-- The static fallback list of `get_cities` in `src/main.py`, verbatim and
in its source order. -/
def fallbackCities : List String :=
  ["Caloocan", "Las Piñas", "Makati City", "Malabon", "Mandaluyong City",
   "Navotas", "Parañaque City", "Pasig", "Quezon City", "San Juan", "Taguig",
   "Valenzuela", "Manila"]

/-- The `GET /cities` handler of `src/main.py`: sorted store keys when the
store is non-empty, else the static fallback list. -/
def get_cities (store : Store) : List String :=
  match store with
  | [] => fallbackCities
  | _ => (List.map Prod.fst store).mergeSort fun a b => decide (a ≤ b)

/-- The unrounded per-pollutant sub-index list over the same keys, used to
state the spec's description of aggregation over *unrounded* sub-indices
(the source's `sub_aqi` rounds each entry first). -/
def sub_aqi_raw (inputs : ReadingSet) : List (String × Option ℚ) :=
  POLLUTANTS.map fun k => (k, compute_sub_aqi k (readingGet inputs k))

/-- Spec-side definition, following the spec's words for comparison with
the source: "the overall AQI is the maximum of the unrounded sub-index
values". -/
def specUnroundedOverall (inputs : ReadingSet) : Option ℚ :=
  (aggregate (sub_aqi_raw inputs)).1

/-- A one-city profile store used as concrete input: Manila with a stored
pm25 default of 25. -/
def manilaStore : Store := [("Manila", { pm25 := some 25 })]

/-- A request carrying the single explicit field pm25 = 999. -/
def req999 : ReadingSet := { pm25 := some 999 }

/-- A request reading set carrying only o3 = 200.02, whose unrounded o3
sub-index 300.021... lies strictly between 300 and its one-decimal
rounding 300.0. -/
def o3Input : ReadingSet := { o3 := some 200.02 }

/-- The exact-tie sub-index mapping {pm25: 80, pm10: 80} over the fixed
key order of `pollutant_map`. -/
def tieSubs : List (String × Option ℚ) :=
  [("pm25", some 80), ("pm10", some 80), ("no2", none), ("so2", none),
   ("co", none), ("o3", none)]

/-! ### Helper lemmas -/

theorem le_roundHalfEven (q : ℚ) : ⌊q⌋ ≤ roundHalfEven q := by
  unfold roundHalfEven; split_ifs <;> omega

theorem roundHalfEven_le (q : ℚ) : roundHalfEven q ≤ ⌊q⌋ + 1 := by
  unfold roundHalfEven; split_ifs <;> omega

theorem roundHalfEven_mono : Monotone roundHalfEven := by
  intro a b h
  have hf : ⌊a⌋ ≤ ⌊b⌋ := Int.floor_le_floor h
  rcases eq_or_lt_of_le hf with he | hl
  · have he' : ((⌊a⌋ : ℤ) : ℚ) = ((⌊b⌋ : ℤ) : ℚ) := by exact_mod_cast he
    unfold roundHalfEven
    split_ifs <;> first | omega | (exfalso; linarith)
  · calc roundHalfEven a ≤ ⌊a⌋ + 1 := roundHalfEven_le a
      _ ≤ ⌊b⌋ := by omega
      _ ≤ roundHalfEven b := le_roundHalfEven b

theorem round1_mono : Monotone round1 := by
  intro a b h
  have h10 : a * 10 ≤ b * 10 := by linarith
  have hm := roundHalfEven_mono h10
  have hm' : ((roundHalfEven (a * 10) : ℤ) : ℚ) ≤ ((roundHalfEven (b * 10) : ℤ) : ℚ) := by
    exact_mod_cast hm
  unfold round1
  linarith

theorem roundHalfEven_intCast (z : ℤ) : roundHalfEven (z : ℚ) = z := by
  unfold roundHalfEven
  rw [Int.floor_intCast]
  norm_num

theorem round1_idem (q : ℚ) : round1 (round1 q) = round1 q := by
  unfold round1
  have h : ((roundHalfEven (q * 10) : ℤ) : ℚ) / 10 * 10 = ((roundHalfEven (q * 10) : ℤ) : ℚ) := by
    ring
  rw [h, roundHalfEven_intCast]

theorem round1_map_idem (o : Option ℚ) : (o.map round1).map round1 = o.map round1 := by
  cases o <;> simp [round1_idem]

theorem bestStep_snd (b y : String × ℚ) : (bestStep b y).2 = max b.2 y.2 := by
  unfold bestStep; split_ifs with h
  · rw [max_eq_right h.le]
  · rw [max_eq_left (le_of_not_lt h)]

theorem foldl_bestStep_snd (xs : List (String × ℚ)) (x : String × ℚ) :
    (xs.foldl bestStep x).2 = (xs.map Prod.snd).foldl max x.2 := by
  induction xs generalizing x with
  | nil => rfl
  | cons y ys ih => simp [List.foldl_cons, ih, bestStep_snd]

theorem le_foldl_bestStep (xs : List (String × ℚ)) (x : String × ℚ) :
    x.2 ≤ (xs.foldl bestStep x).2 := by
  induction xs generalizing x with
  | nil => exact le_refl _
  | cons y ys ih =>
    refine le_trans ?_ (ih (bestStep x y))
    unfold bestStep; split_ifs with h
    · exact h.le
    · exact le_refl _

theorem mem_le_foldl_bestStep (xs : List (String × ℚ)) (x : String × ℚ) :
    ∀ y ∈ xs, y.2 ≤ (xs.foldl bestStep x).2 := by
  induction xs generalizing x with
  | nil => intro y hy; cases hy
  | cons z zs ih =>
    intro y hy
    rcases List.mem_cons.mp hy with rfl | hy
    · refine le_trans ?_ (le_foldl_bestStep zs (bestStep x y))
      unfold bestStep; split_ifs with h
      · exact le_refl _
      · exact le_of_not_lt h
    · exact ih (bestStep x z) y hy

theorem foldl_bestStep_mem (xs : List (String × ℚ)) (x : String × ℚ) :
    xs.foldl bestStep x ∈ x :: xs := by
  induction xs generalizing x with
  | nil => exact List.mem_singleton.mpr rfl
  | cons y ys ih =>
    rw [List.foldl_cons]
    have h := ih (bestStep x y)
    rcases List.mem_cons.mp h with h1 | h1
    · rw [h1]; unfold bestStep; split_ifs
      · exact List.mem_cons_of_mem _ (List.mem_cons_self _ _)
      · exact List.mem_cons_self _ _
    · exact List.mem_cons_of_mem _ (List.mem_cons_of_mem _ h1)

theorem find?_foldl_bestStep (xs : List (String × ℚ)) (x : String × ℚ) :
    (x :: xs).find? (fun y => decide (y.2 = (xs.foldl bestStep x).2)) =
      some (xs.foldl bestStep x) := by
  induction xs generalizing x with
  | nil => simp [List.find?]
  | cons y ys ih =>
    simp only [List.foldl_cons]
    by_cases hxy : x.2 < y.2
    · have hstep : bestStep x y = y := if_pos hxy
      simp only [hstep]
      have hb : x.2 ≠ (ys.foldl bestStep y).2 := by
        have : y.2 ≤ (ys.foldl bestStep y).2 := le_foldl_bestStep ys y
        exact ne_of_lt (lt_of_lt_of_le hxy this)
      rw [List.find?_cons_of_neg _ (by simpa using hb)]
      exact ih y
    · have hstep : bestStep x y = x := if_neg hxy
      simp only [hstep]
      have ihx := ih x
      by_cases hx : x.2 = (ys.foldl bestStep x).2
      · rw [List.find?_cons_of_pos _ (by simpa using hx)]
        rw [List.find?_cons_of_pos _ (by simpa using hx)] at ihx
        exact ihx
      · have hxlt : x.2 < (ys.foldl bestStep x).2 :=
          lt_of_le_of_ne (le_foldl_bestStep ys x) hx
        have hy : y.2 ≠ (ys.foldl bestStep x).2 :=
          ne_of_lt (lt_of_le_of_lt (le_of_not_lt hxy) hxlt)
        rw [List.find?_cons_of_neg _ (by simpa using hx),
            List.find?_cons_of_neg _ (by simpa using hy)]
        rw [List.find?_cons_of_neg _ (by simpa using hx)] at ihx
        exact ihx

theorem computeFromSegs_eq_none_iff (segs : List Seg) (last : Seg)
    (h : segs.getLast? = some last) (v : ℚ) :
    computeFromSegs segs v = none ↔
      (∀ s ∈ segs, ¬(s.Clow ≤ v ∧ v ≤ s.Chigh)) ∧ v ≤ last.Chigh := by
  rcases hf : segs.find? (fun s => decide (s.Clow ≤ v ∧ v ≤ s.Chigh)) with _ | s
  · unfold computeFromSegs
    rw [hf, h]
    dsimp only
    have hall : ∀ s ∈ segs, ¬(s.Clow ≤ v ∧ v ≤ s.Chigh) := by
      intro s hs
      simpa using List.find?_eq_none.mp hf s hs
    constructor
    · intro hnone
      refine ⟨hall, ?_⟩
      by_contra hlt
      push_neg at hlt
      rw [if_pos hlt] at hnone
      exact Option.some_ne_none _ hnone
    · rintro ⟨_, hle⟩
      rw [if_neg (not_lt.mpr hle)]
  · unfold computeFromSegs
    rw [hf]
    dsimp only
    constructor
    · intro hnone
      exact absurd hnone (Option.some_ne_none _)
    · rintro ⟨hall, _⟩
      have hps : s.Clow ≤ v ∧ v ≤ s.Chigh := by simpa using List.find?_some hf
      exact absurd hps (hall s (List.mem_of_find?_eq_some hf))

theorem computeFromSegs_above (segs : List Seg) (last : Seg) (v : ℚ)
    (hlast : segs.getLast? = some last)
    (hall : ∀ s ∈ segs, s.Chigh < v) :
    computeFromSegs segs v =
      some (max 0 (linear_iaqi v last.Clow last.Chigh last.Ilow last.Ihigh)) := by
  have hf : segs.find? (fun s => decide (s.Clow ≤ v ∧ v ≤ s.Chigh)) = none := by
    rw [List.find?_eq_none]
    intro s hs
    simp only [decide_eq_true_eq]
    rintro ⟨_, h2⟩
    exact absurd h2 (not_le.mpr (hall s hs))
  unfold computeFromSegs
  rw [hf, hlast]
  dsimp only
  rw [if_pos (hall last (List.mem_of_mem_getLast? hlast))]

theorem compute_none_iff_of_lookup (p : String) (segs : List Seg) (last : Seg)
    (hseg : AQI_BREAKPOINTS.lookup p = some segs) (hlast : segs.getLast? = some last)
    (v : ℚ) :
    compute_sub_aqi p (some v) = none ↔
      (∀ s ∈ segs, ¬(s.Clow ≤ v ∧ v ≤ s.Chigh)) ∧ v ≤ last.Chigh := by
  unfold compute_sub_aqi
  rw [hseg]
  exact computeFromSegs_eq_none_iff segs last hlast v

theorem valid_subs_map_round1 (l : List (String × Option ℚ)) :
    valid_subs (l.map fun p => (p.1, p.2.map round1)) =
      (valid_subs l).map fun p => (p.1, round1 p.2) := by
  induction l with
  | nil => rfl
  | cons p ps ih =>
    rcases p with ⟨k, o⟩
    cases o with
    | none => simpa [valid_subs, List.filterMap_cons] using ih
    | some v => simpa [valid_subs, List.filterMap_cons] using ih

theorem foldl_max_round1 (xs : List ℚ) (x : ℚ) :
    (xs.map round1).foldl max (round1 x) = round1 (xs.foldl max x) := by
  induction xs generalizing x with
  | nil => rfl
  | cons y ys ih =>
    simp only [List.map_cons, List.foldl_cons, ← round1_mono.map_max, ih]

theorem listMax_map_round1 (xs : List ℚ) :
    listMax (xs.map round1) = (listMax xs).map round1 := by
  cases xs with
  | nil => rfl
  | cons x ys => simp [listMax, foldl_max_round1]

theorem sub_aqi_list_eq_map (inputs : ReadingSet) :
    sub_aqi_list inputs = (sub_aqi_raw inputs).map fun p => (p.1, p.2.map round1) := by
  unfold sub_aqi_list sub_aqi_raw
  rw [List.map_map]
  rfl

/-! ### Claim theorems -/

/-- C7: `aqi_category` classifies every non-negative value by inclusive
upper thresholds: ≤50 Good, ≤100 Moderate, ≤150 Unhealthy for Sensitive
Groups, ≤200 Unhealthy, ≤300 Very Unhealthy, larger Hazardous; in
particular at 100, 100.1 and 0. -/
theorem aqi_category_thresholds (q : ℚ) (h : 0 ≤ q) :
    (q ≤ 50 → aqi_category q = "Good") ∧
    (50 < q → q ≤ 100 → aqi_category q = "Moderate") ∧
    (100 < q → q ≤ 150 → aqi_category q = "Unhealthy for Sensitive Groups") ∧
    (150 < q → q ≤ 200 → aqi_category q = "Unhealthy") ∧
    (200 < q → q ≤ 300 → aqi_category q = "Very Unhealthy") ∧
    (300 < q → aqi_category q = "Hazardous") ∧
    aqi_category 100 = "Moderate" ∧
    aqi_category 100.1 = "Unhealthy for Sensitive Groups" ∧
    aqi_category 0 = "Good" := by
  refine ⟨?_, ?_, ?_, ?_, ?_, ?_, by norm_num [aqi_category],
    by norm_num [aqi_category], by norm_num [aqi_category]⟩
  · intro h1
    simp only [aqi_category]
    rw [if_pos h1]
  · intro h1 h2
    simp only [aqi_category]
    rw [if_neg (by linarith), if_pos h2]
  · intro h1 h2
    simp only [aqi_category]
    rw [if_neg (by linarith), if_neg (by linarith), if_pos h2]
  · intro h1 h2
    simp only [aqi_category]
    rw [if_neg (by linarith), if_neg (by linarith), if_neg (by linarith), if_pos h2]
  · intro h1 h2
    simp only [aqi_category]
    rw [if_neg (by linarith), if_neg (by linarith), if_neg (by linarith),
      if_neg (by linarith), if_pos h2]
  · intro h1
    simp only [aqi_category]
    rw [if_neg (by linarith), if_neg (by linarith), if_neg (by linarith),
      if_neg (by linarith), if_neg (by linarith)]

/-- C7 witness: the theorem applied at the concrete input 100.1. -/
theorem aqi_category_thresholds_witness :
    aqi_category 100.1 = "Unhealthy for Sensitive Groups" :=
  (aqi_category_thresholds 100.1 (by norm_num)).2.2.1 (by norm_num) (by norm_num)

/-- C9 counterexample: on the empty store `get_cities` returns the static
fallback list, and that list is not sorted — "Manila" follows
"Valenzuela" — so the claim that the fallback is likewise sorted fails. -/
theorem get_cities_fallback_unsorted_cex :
    get_cities ([] : Store) = fallbackCities ∧
    ¬ List.Sorted (fun a b : String => a ≤ b) (get_cities ([] : Store)) := by
  refine ⟨rfl, ?_⟩
  intro h
  rw [show get_cities ([] : Store) = fallbackCities from rfl] at h
  have hsub : List.Sublist ["Valenzuela", "Manila"] fallbackCities := by
    have heq : fallbackCities =
        ["Caloocan", "Las Piñas", "Makati City", "Malabon", "Mandaluyong City",
         "Navotas", "Parañaque City", "Pasig", "Quezon City", "San Juan",
         "Taguig"] ++ ["Valenzuela", "Manila"] := rfl
    rw [heq]
    exact List.sublist_append_right _ _
  have hsorted : List.Sorted (fun a b : String => a ≤ b) ["Valenzuela", "Manila"] :=
    List.Pairwise.sublist hsub h
  have hv : ("Valenzuela" : String) ≤ "Manila" :=
    List.rel_of_sorted_cons hsorted "Manila" (by simp)
  have hv' : "Valenzuela".toList ≤ "Manila".toList := String.le_iff_toList_le.mp hv
  exact absurd hv' (by decide)

/-- C9 amended: `GET /cities` returns the sorted keys of the profile store
when it is non-empty, and on an empty store the documented static fallback
list, which is not itself sorted (see the counterexample). -/
theorem get_cities_sorted_or_fallback (store : Store) (h : store ≠ []) :
    List.Sorted (fun a b : String => a ≤ b) (get_cities store) ∧
    (get_cities store).Perm (store.map Prod.fst) ∧
    get_cities ([] : Store) = fallbackCities := by
  refine ⟨?_, ?_, rfl⟩
  · cases store with
    | nil => exact absurd rfl h
    | cons p ps =>
      unfold get_cities
      have hs := @List.sorted_mergeSort String
        (fun a b : String => decide (a ≤ b))
        (fun a b c hab hbc =>
          decide_eq_true (le_trans (of_decide_eq_true hab) (of_decide_eq_true hbc)))
        (fun a b => by
          rcases le_total a b with hle | hle
          · simp [hle]
          · simp [hle])
        (List.map Prod.fst (p :: ps))
      exact hs.imp fun hab => of_decide_eq_true hab
  · cases store with
    | nil => exact absurd rfl h
    | cons p ps =>
      unfold get_cities
      exact List.mergeSort_perm _ _

/-- C9 witness: the amended theorem applied to a concrete one-city store. -/
theorem get_cities_sorted_or_fallback_witness :
    List.Sorted (fun a b : String => a ≤ b) (get_cities manilaStore) ∧
    (get_cities manilaStore).Perm (manilaStore.map Prod.fst) ∧
    get_cities ([] : Store) = fallbackCities :=
  get_cities_sorted_or_fallback manilaStore (by simp [manilaStore])

/-- C1 (code-bug evidence): resolving inputs for a known city with an
explicit override writes through the aliased `latest_inputs` dict: after
the request, the stored Manila profile holds pm25 = 999 instead of its
original 25, so the profile store is NOT left unchanged. -/
theorem predict_mutates_profile_store :
    (predictFull (some "Manila") req999 manilaStore).2 =
      [("Manila", ({ pm25 := some 999 } : ReadingSet))] ∧
    (predictFull (some "Manila") req999 manilaStore).2 ≠ manilaStore := by
  have h1 : (predictFull (some "Manila") req999 manilaStore).2 =
      [("Manila", ({ pm25 := some 999 } : ReadingSet))] := by
    simp [predictFull, predictInputs, findCity, manilaStore, req999, List.find?,
      overrideFields, overrideField, emptyReadings]
  refine ⟨h1, ?_⟩
  rw [h1]
  simp only [manilaStore, ne_eq, List.cons.injEq, Prod.mk.injEq, ReadingSet.mk.injEq,
    Option.some.injEq]
  norm_num

/-- C3 counterexample: pm25 is recognized and 12.05 is a present value not
below the lowest segment's Clow (= 0), yet `compute_sub_aqi` returns
`None`: 12.05 falls in the gap between the segments ending at 12.0 and
starting at 12.1, an absent-producing case the claim does not list. -/
theorem compute_sub_aqi_gap_absent_cex :
    compute_sub_aqi "pm25" (some 12.05) = none ∧
    ("pm25" : String) ∈ POLLUTANTS ∧
    (∃ segs first, AQI_BREAKPOINTS.lookup "pm25" = some segs ∧
      segs.head? = some first ∧ first.Clow ≤ 12.05) := by
  refine ⟨?_, by simp [POLLUTANTS], ⟨_, _, rfl, rfl, by norm_num⟩⟩
  norm_num [compute_sub_aqi, AQI_BREAKPOINTS, pm25Bps, computeFromSegs, linear_iaqi,
    List.find?, List.lookup, List.getLast?, List.getLast]

/-- C3 amended: for a recognized pollutant, `compute_sub_aqi` is absent on
a present value exactly when no segment's closed interval contains it and
it does not exceed the last segment's Chigh (i.e. it is below the lowest
Clow or inside an inter-segment gap); an absent value or an unrecognized
pollutant always yields absent, and the function is total. -/
theorem compute_sub_aqi_none_characterization (p q : String) (hp : p ∈ POLLUTANTS)
    (hq : AQI_BREAKPOINTS.lookup q = none) (v : ℚ) :
    (∃ segs last, AQI_BREAKPOINTS.lookup p = some segs ∧ segs.getLast? = some last ∧
      (compute_sub_aqi p (some v) = none ↔
        (∀ s ∈ segs, ¬(s.Clow ≤ v ∧ v ≤ s.Chigh)) ∧ v ≤ last.Chigh)) ∧
    compute_sub_aqi p none = none ∧
    compute_sub_aqi q (some v) = none := by
  refine ⟨?_, rfl, ?_⟩
  · simp only [POLLUTANTS] at hp
    fin_cases hp
    · exact ⟨pm25Bps, ⟨350.5, 500.4, 401, 500⟩,
        by simp [AQI_BREAKPOINTS, List.lookup], rfl,
        compute_none_iff_of_lookup "pm25" pm25Bps ⟨350.5, 500.4, 401, 500⟩
          (by simp [AQI_BREAKPOINTS, List.lookup]) rfl v⟩
    · exact ⟨pm10Bps, ⟨505, 604, 401, 500⟩,
        by simp [AQI_BREAKPOINTS, List.lookup], rfl,
        compute_none_iff_of_lookup "pm10" pm10Bps ⟨505, 604, 401, 500⟩
          (by simp [AQI_BREAKPOINTS, List.lookup]) rfl v⟩
    · exact ⟨no2Bps, ⟨1650, 2049, 401, 500⟩,
        by simp [AQI_BREAKPOINTS, List.lookup], rfl,
        compute_none_iff_of_lookup "no2" no2Bps ⟨1650, 2049, 401, 500⟩
          (by simp [AQI_BREAKPOINTS, List.lookup]) rfl v⟩
    · exact ⟨so2Bps, ⟨805, 1004, 401, 500⟩,
        by simp [AQI_BREAKPOINTS, List.lookup], rfl,
        compute_none_iff_of_lookup "so2" so2Bps ⟨805, 1004, 401, 500⟩
          (by simp [AQI_BREAKPOINTS, List.lookup]) rfl v⟩
    · exact ⟨coBps, ⟨40.5, 50.4, 401, 500⟩,
        by simp [AQI_BREAKPOINTS, List.lookup], rfl,
        compute_none_iff_of_lookup "co" coBps ⟨40.5, 50.4, 401, 500⟩
          (by simp [AQI_BREAKPOINTS, List.lookup]) rfl v⟩
    · exact ⟨o3Bps, ⟨106, 200, 201, 300⟩,
        by simp [AQI_BREAKPOINTS, List.lookup], rfl,
        compute_none_iff_of_lookup "o3" o3Bps ⟨106, 200, 201, 300⟩
          (by simp [AQI_BREAKPOINTS, List.lookup]) rfl v⟩
  · unfold compute_sub_aqi
    rw [hq]

/-- C3 witness: the characterization applied at pm25 with v = 12.05 and at
the unrecognized pollutant id "nox". -/
theorem compute_sub_aqi_none_characterization_witness :
    (∃ segs last, AQI_BREAKPOINTS.lookup "pm25" = some segs ∧ segs.getLast? = some last ∧
      (compute_sub_aqi "pm25" (some 12.05) = none ↔
        (∀ s ∈ segs, ¬(s.Clow ≤ 12.05 ∧ 12.05 ≤ s.Chigh)) ∧ (12.05 : ℚ) ≤ last.Chigh)) ∧
    compute_sub_aqi "pm25" none = none ∧
    compute_sub_aqi "nox" (some 12.05) = none :=
  compute_sub_aqi_none_characterization "pm25" "nox" (by simp [POLLUTANTS])
    (by simp [AQI_BREAKPOINTS, List.lookup]) 12.05

theorem overrideField_none (e : Option ℚ) : overrideField none e = e := by
  cases e <;> rfl

theorem overrideFields_empty (expl : ReadingSet) :
    overrideFields emptyReadings expl = expl := by
  rcases expl with ⟨f1, f2, f3, f4, f5, f6, f7, f8⟩
  simp [overrideFields, emptyReadings, overrideField_none]

/-- C8: input resolution starts from the case-insensitively matched city's
stored readings, or from the empty reading set when the city is absent,
falsy or matches no profile (never an error); each present explicit field
overwrites the base value, so an unknown-city request resolves to exactly
the explicit fields, and an explicit value always wins over a city
default. -/
theorem resolve_inputs_spec (city : Option String) (expl : ReadingSet) (store : Store) :
    (city = none → (predictInputs city expl store).1 = expl) ∧
    (city = some "" → (predictInputs city expl store).1 = expl) ∧
    (∀ c, city = some c → c ≠ "" → findCity store c = none →
      (predictInputs city expl store).1 = expl) ∧
    (∀ c nb, city = some c → c ≠ "" → findCity store c = some nb →
      (predictInputs city expl store).1 = overrideFields nb.2 expl) ∧
    (∀ base : ReadingSet,
      (∀ v, expl.pm25 = some v → (overrideFields base expl).pm25 = some v) ∧
      (∀ v, expl.pm10 = some v → (overrideFields base expl).pm10 = some v) ∧
      (∀ v, expl.no2 = some v → (overrideFields base expl).no2 = some v) ∧
      (∀ v, expl.so2 = some v → (overrideFields base expl).so2 = some v) ∧
      (∀ v, expl.co = some v → (overrideFields base expl).co = some v) ∧
      (∀ v, expl.o3 = some v → (overrideFields base expl).o3 = some v) ∧
      (∀ v, expl.temperature = some v → (overrideFields base expl).temperature = some v) ∧
      (∀ v, expl.humidity = some v → (overrideFields base expl).humidity = some v)) := by
  refine ⟨?_, ?_, ?_, ?_, ?_⟩
  · rintro rfl
    simp [predictInputs, overrideFields_empty]
  · rintro rfl
    simp [predictInputs, overrideFields_empty]
  · rintro c rfl hne hfind
    simp [predictInputs, hne, hfind, overrideFields_empty]
  · rintro c nb rfl hne hfind
    simp [predictInputs, hne, hfind]
  · intro base
    refine ⟨?_, ?_, ?_, ?_, ?_, ?_, ?_, ?_⟩ <;>
      · intro v hv
        simp [overrideFields, overrideField, hv]

/-- C8 witness: resolving city "Manila" against the one-city store with an
explicit pm25 = 999 starts from Manila's stored readings and applies the
override. -/
theorem resolve_inputs_spec_witness :
    (predictInputs (some "Manila") req999 manilaStore).1 =
      overrideFields ({ pm25 := some 25 } : ReadingSet) req999 :=
  (resolve_inputs_spec (some "Manila") req999 manilaStore).2.2.2.1 "Manila"
    ("Manila", ({ pm25 := some 25 } : ReadingSet)) rfl (by decide)
    (by simp [findCity, manilaStore, List.find?])

theorem compute_eval_of_lookup (p : String) (segs : List Seg)
    (hseg : AQI_BREAKPOINTS.lookup p = some segs) (v : ℚ) :
    compute_sub_aqi p (some v) = computeFromSegs segs v := by
  unfold compute_sub_aqi
  rw [hseg]

theorem compute_above_of_lookup (p : String) (segs : List Seg) (last : Seg)
    (hseg : AQI_BREAKPOINTS.lookup p = some segs) (hlast : segs.getLast? = some last)
    (v : ℚ) (hv : ∀ s ∈ segs, s.Chigh < v) :
    compute_sub_aqi p (some v) =
      some (max 0 (linear_iaqi v last.Clow last.Chigh last.Ilow last.Ihigh)) := by
  rw [compute_eval_of_lookup p segs hseg]
  exact computeFromSegs_above segs last v hlast hv

/-- C5: for every recognized pollutant and every concentration strictly
above the last segment's Chigh, `compute_sub_aqi` returns the last
segment's linear formula at that concentration, clamped below at 0 and
with no upper bound; in particular pm25 at 600 yields 848104/1499 > 500. -/
theorem compute_sub_aqi_extrapolates_above (p : String) (hp : p ∈ POLLUTANTS) (v : ℚ) :
    (∃ segs last, AQI_BREAKPOINTS.lookup p = some segs ∧ segs.getLast? = some last ∧
      (last.Chigh < v →
        compute_sub_aqi p (some v) =
          some (max 0 (linear_iaqi v last.Clow last.Chigh last.Ilow last.Ihigh)))) ∧
    compute_sub_aqi "pm25" (some 600) = some (848104 / 1499) ∧
    (500 : ℚ) < 848104 / 1499 := by
  refine ⟨?_, ?_, by norm_num⟩
  · simp only [POLLUTANTS] at hp
    fin_cases hp
    · refine ⟨pm25Bps, ⟨350.5, 500.4, 401, 500⟩,
        by simp [AQI_BREAKPOINTS, List.lookup], rfl, fun hv => ?_⟩
      refine compute_above_of_lookup "pm25" pm25Bps ⟨350.5, 500.4, 401, 500⟩
        (by simp [AQI_BREAKPOINTS, List.lookup]) rfl v ?_
      intro s hs
      norm_num at hv
      simp only [pm25Bps] at hs
      fin_cases hs <;> norm_num <;> linarith
    · refine ⟨pm10Bps, ⟨505, 604, 401, 500⟩,
        by simp [AQI_BREAKPOINTS, List.lookup], rfl, fun hv => ?_⟩
      refine compute_above_of_lookup "pm10" pm10Bps ⟨505, 604, 401, 500⟩
        (by simp [AQI_BREAKPOINTS, List.lookup]) rfl v ?_
      intro s hs
      norm_num at hv
      simp only [pm10Bps] at hs
      fin_cases hs <;> norm_num <;> linarith
    · refine ⟨no2Bps, ⟨1650, 2049, 401, 500⟩,
        by simp [AQI_BREAKPOINTS, List.lookup], rfl, fun hv => ?_⟩
      refine compute_above_of_lookup "no2" no2Bps ⟨1650, 2049, 401, 500⟩
        (by simp [AQI_BREAKPOINTS, List.lookup]) rfl v ?_
      intro s hs
      norm_num at hv
      simp only [no2Bps] at hs
      fin_cases hs <;> norm_num <;> linarith
    · refine ⟨so2Bps, ⟨805, 1004, 401, 500⟩,
        by simp [AQI_BREAKPOINTS, List.lookup], rfl, fun hv => ?_⟩
      refine compute_above_of_lookup "so2" so2Bps ⟨805, 1004, 401, 500⟩
        (by simp [AQI_BREAKPOINTS, List.lookup]) rfl v ?_
      intro s hs
      norm_num at hv
      simp only [so2Bps] at hs
      fin_cases hs <;> norm_num <;> linarith
    · refine ⟨coBps, ⟨40.5, 50.4, 401, 500⟩,
        by simp [AQI_BREAKPOINTS, List.lookup], rfl, fun hv => ?_⟩
      refine compute_above_of_lookup "co" coBps ⟨40.5, 50.4, 401, 500⟩
        (by simp [AQI_BREAKPOINTS, List.lookup]) rfl v ?_
      intro s hs
      norm_num at hv
      simp only [coBps] at hs
      fin_cases hs <;> norm_num <;> linarith
    · refine ⟨o3Bps, ⟨106, 200, 201, 300⟩,
        by simp [AQI_BREAKPOINTS, List.lookup], rfl, fun hv => ?_⟩
      refine compute_above_of_lookup "o3" o3Bps ⟨106, 200, 201, 300⟩
        (by simp [AQI_BREAKPOINTS, List.lookup]) rfl v ?_
      intro s hs
      norm_num at hv
      simp only [o3Bps] at hs
      fin_cases hs <;> norm_num <;> linarith
  · rw [compute_eval_of_lookup "pm25" pm25Bps (by simp [AQI_BREAKPOINTS, List.lookup])]
    norm_num [computeFromSegs, pm25Bps, linear_iaqi, List.find?, List.getLast?,
      List.getLast]

/-- C5 witness: the theorem applied at pm25 and v = 600. -/
theorem compute_sub_aqi_extrapolates_above_witness :
    (∃ segs last, AQI_BREAKPOINTS.lookup "pm25" = some segs ∧
      segs.getLast? = some last ∧
      (last.Chigh < 600 →
        compute_sub_aqi "pm25" (some 600) =
          some (max 0 (linear_iaqi 600 last.Clow last.Chigh last.Ilow last.Ihigh)))) ∧
    compute_sub_aqi "pm25" (some 600) = some (848104 / 1499) ∧
    (500 : ℚ) < 848104 / 1499 :=
  compute_sub_aqi_extrapolates_above "pm25" (by simp [POLLUTANTS]) 600

/-- C6: at every segment boundary value the computed sub-index is exactly
the corresponding index endpoint of the (unique, hence first) segment whose
closed interval contains it; in particular pm25 at 12.0 gives 50.0 and at
12.1 gives 51.0. -/
theorem compute_sub_aqi_boundary_exact (p : String) (hp : p ∈ POLLUTANTS)
    (segs : List Seg) (hsegs : AQI_BREAKPOINTS.lookup p = some segs)
    (s : Seg) (hs : s ∈ segs) :
    (compute_sub_aqi p (some s.Clow) = some s.Ilow ∧
     compute_sub_aqi p (some s.Chigh) = some s.Ihigh) ∧
    compute_sub_aqi "pm25" (some 12.0) = some 50 ∧
    compute_sub_aqi "pm25" (some 12.1) = some 51 := by
  refine ⟨?_, ?_, ?_⟩
  · simp only [POLLUTANTS] at hp
    fin_cases hp
    · have h : segs = pm25Bps := by
        simpa [AQI_BREAKPOINTS, List.lookup] using hsegs.symm
      subst h
      simp only [pm25Bps] at hs
      fin_cases hs <;>
        refine ⟨?_, ?_⟩ <;>
        · rw [compute_eval_of_lookup "pm25" pm25Bps (by simp [AQI_BREAKPOINTS, List.lookup])]
          norm_num [computeFromSegs, pm25Bps, linear_iaqi, List.find?]
    · have h : segs = pm10Bps := by
        simpa [AQI_BREAKPOINTS, List.lookup] using hsegs.symm
      subst h
      simp only [pm10Bps] at hs
      fin_cases hs <;>
        refine ⟨?_, ?_⟩ <;>
        · rw [compute_eval_of_lookup "pm10" pm10Bps (by simp [AQI_BREAKPOINTS, List.lookup])]
          norm_num [computeFromSegs, pm10Bps, linear_iaqi, List.find?]
    · have h : segs = no2Bps := by
        simpa [AQI_BREAKPOINTS, List.lookup] using hsegs.symm
      subst h
      simp only [no2Bps] at hs
      fin_cases hs <;>
        refine ⟨?_, ?_⟩ <;>
        · rw [compute_eval_of_lookup "no2" no2Bps (by simp [AQI_BREAKPOINTS, List.lookup])]
          norm_num [computeFromSegs, no2Bps, linear_iaqi, List.find?]
    · have h : segs = so2Bps := by
        simpa [AQI_BREAKPOINTS, List.lookup] using hsegs.symm
      subst h
      simp only [so2Bps] at hs
      fin_cases hs <;>
        refine ⟨?_, ?_⟩ <;>
        · rw [compute_eval_of_lookup "so2" so2Bps (by simp [AQI_BREAKPOINTS, List.lookup])]
          norm_num [computeFromSegs, so2Bps, linear_iaqi, List.find?]
    · have h : segs = coBps := by
        simpa [AQI_BREAKPOINTS, List.lookup] using hsegs.symm
      subst h
      simp only [coBps] at hs
      fin_cases hs <;>
        refine ⟨?_, ?_⟩ <;>
        · rw [compute_eval_of_lookup "co" coBps (by simp [AQI_BREAKPOINTS, List.lookup])]
          norm_num [computeFromSegs, coBps, linear_iaqi, List.find?]
    · have h : segs = o3Bps := by
        simpa [AQI_BREAKPOINTS, List.lookup] using hsegs.symm
      subst h
      simp only [o3Bps] at hs
      fin_cases hs <;>
        refine ⟨?_, ?_⟩ <;>
        · rw [compute_eval_of_lookup "o3" o3Bps (by simp [AQI_BREAKPOINTS, List.lookup])]
          norm_num [computeFromSegs, o3Bps, linear_iaqi, List.find?]
  · rw [compute_eval_of_lookup "pm25" pm25Bps (by simp [AQI_BREAKPOINTS, List.lookup])]
    norm_num [computeFromSegs, pm25Bps, linear_iaqi, List.find?]
  · rw [compute_eval_of_lookup "pm25" pm25Bps (by simp [AQI_BREAKPOINTS, List.lookup])]
    norm_num [computeFromSegs, pm25Bps, linear_iaqi, List.find?]

/-- C6 witness: the theorem applied at pm25 and its second segment
(12.1, 35.4, 51, 100). -/
theorem compute_sub_aqi_boundary_exact_witness :
    (compute_sub_aqi "pm25" (some (Seg.Clow ⟨12.1, 35.4, 51, 100⟩)) = some 51 ∧
     compute_sub_aqi "pm25" (some (Seg.Chigh ⟨12.1, 35.4, 51, 100⟩)) = some 100) ∧
    compute_sub_aqi "pm25" (some 12.0) = some 50 ∧
    compute_sub_aqi "pm25" (some 12.1) = some 51 :=
  compute_sub_aqi_boundary_exact "pm25" (by simp [POLLUTANTS]) pm25Bps
    (by simp [AQI_BREAKPOINTS, List.lookup]) ⟨12.1, 35.4, 51, 100⟩
    (by simp [pm25Bps])

/-- C2 counterexample: with only o3 = 200.02 the unrounded o3 sub-index is
1410099/4700 ≈ 300.021, whose category is "Hazardous"; the code rounds each
sub-index to one decimal before aggregating, so it aggregates 300.0 and
reports "Very Unhealthy" — the category is not computed from the unrounded
maximum. -/
theorem predict_category_from_rounded_cex :
    (predictAqiOut o3Input).aqi_category = some "Very Unhealthy" ∧
    specUnroundedOverall o3Input = some (1410099 / 4700) ∧
    aqi_category (1410099 / 4700) = "Hazardous" ∧
    (predictAqiOut o3Input).aqi_category ≠ (specUnroundedOverall o3Input).map aqi_category := by
  have hsub : compute_sub_aqi "o3" (some 200.02) = some (1410099 / 4700) := by
    rw [compute_eval_of_lookup "o3" o3Bps (by simp [AQI_BREAKPOINTS, List.lookup])]
    norm_num [computeFromSegs, o3Bps, linear_iaqi, List.find?, List.getLast?, List.getLast]
  have hnone : ∀ k : String, compute_sub_aqi k none = none := fun _ => rfl
  have hround : round1 (1410099 / 4700) = 300 := by norm_num [round1, roundHalfEven]
  have hlist : sub_aqi_list o3Input =
      [("pm25", none), ("pm10", none), ("no2", none), ("so2", none), ("co", none),
       ("o3", some 300)] := by
    simp [sub_aqi_list, POLLUTANTS, readingGet, o3Input, hnone, hsub, hround]
  have hraw : sub_aqi_raw o3Input =
      [("pm25", none), ("pm10", none), ("no2", none), ("so2", none), ("co", none),
       ("o3", some (1410099 / 4700))] := by
    simp [sub_aqi_raw, POLLUTANTS, readingGet, o3Input, hnone, hsub]
  have hagg : aggregate
      [("pm25", none), ("pm10", none), ("no2", none), ("so2", none), ("co", none),
       ("o3", some (300 : ℚ))] = (some 300, some "o3") := by
    simp [aggregate, valid_subs, listMax, argmaxFirst, List.filterMap]
  have haggraw : aggregate
      [("pm25", none), ("pm10", none), ("no2", none), ("so2", none), ("co", none),
       ("o3", some ((1410099 : ℚ) / 4700))] = (some (1410099 / 4700), some "o3") := by
    simp [aggregate, valid_subs, listMax, argmaxFirst, List.filterMap]
  have hcat : (predictAqiOut o3Input).aqi_category = some "Very Unhealthy" := by
    show ((aggregate (sub_aqi_list o3Input)).1).map aqi_category = some "Very Unhealthy"
    rw [hlist, hagg]
    norm_num [aqi_category]
  have hspec : specUnroundedOverall o3Input = some (1410099 / 4700) := by
    show (aggregate (sub_aqi_raw o3Input)).1 = some (1410099 / 4700)
    rw [hraw, haggraw]
  refine ⟨hcat, hspec, by norm_num [aqi_category], ?_⟩
  rw [hcat, hspec]
  have : aqi_category (1410099 / 4700) = "Hazardous" := by norm_num [aqi_category]
  simp [this]

/-- C2 amended: the numeric aqi placed in the payload does equal the
rounding of the unrounded maximum — one-decimal rounding is monotone, so it
commutes with max, and it is idempotent — but the overall maximum is taken
over the already-rounded sub-indices and the category is computed from that
rounded maximum, not from the unrounded one. -/
theorem predict_aqi_from_unrounded_max (inputs : ReadingSet) :
    (predictAqiOut inputs).aqi = (specUnroundedOverall inputs).map round1 ∧
    (predictAqiOut inputs).aqi_category =
      ((aggregate (sub_aqi_list inputs)).1).map aqi_category := by
  refine ⟨?_, rfl⟩
  have h1 : (aggregate (sub_aqi_list inputs)).1 =
      (listMax ((valid_subs (sub_aqi_raw inputs)).map Prod.snd)).map round1 := by
    show listMax ((valid_subs (sub_aqi_list inputs)).map Prod.snd) = _
    rw [sub_aqi_list_eq_map, valid_subs_map_round1, List.map_map]
    rw [show (Prod.snd ∘ fun p : String × ℚ => (p.1, round1 p.2)) =
        round1 ∘ Prod.snd from rfl]
    rw [← List.map_map, listMax_map_round1]
  show ((aggregate (sub_aqi_list inputs)).1).map round1 =
    (specUnroundedOverall inputs).map round1
  rw [h1, round1_map_idem]
  rfl

/-- C4: when the aggregate is present, the main pollutant is the first
entry of `valid_subs` (which follows the fixed enumeration order
pm25, pm10, no2, so2, co, o3) attaining the maximal value; aggregating the
exact tie {pm25: 80, pm10: 80} yields pm25. -/
theorem aggregate_first_max (l : List (String × Option ℚ)) (v : ℚ) (k : String)
    (hv : (aggregate l).1 = some v) (hk : (aggregate l).2 = some k) :
    (∀ y ∈ valid_subs l, y.2 ≤ v) ∧
    (valid_subs l).find? (fun y => decide (y.2 = v)) = some (k, v) ∧
    aggregate tieSubs = (some 80, some "pm25") := by
  have htie : aggregate tieSubs = (some 80, some "pm25") := by
    simp [aggregate, tieSubs, valid_subs, listMax, argmaxFirst, bestStep,
      List.filterMap]
  cases hval : valid_subs l with
  | nil =>
    rw [show (aggregate l).1 = listMax ((valid_subs l).map Prod.snd) from rfl,
      hval] at hv
    simp [listMax] at hv
  | cons x xs =>
    have hv' : (xs.map Prod.snd).foldl max x.2 = v := by
      rw [show (aggregate l).1 = listMax ((valid_subs l).map Prod.snd) from rfl,
        hval] at hv
      simpa [listMax] using hv
    have hk' : (xs.foldl bestStep x).1 = k := by
      rw [show (aggregate l).2 = (argmaxFirst (valid_subs l)).map Prod.fst from rfl,
        hval] at hk
      simpa [argmaxFirst] using hk
    have hbest2 : (xs.foldl bestStep x).2 = v := by
      rw [foldl_bestStep_snd, hv']
    refine ⟨?_, ?_, htie⟩
    · intro y hy
      rcases List.mem_cons.mp hy with rfl | hy
      · rw [← hbest2]
        exact le_foldl_bestStep xs y
      · rw [← hbest2]
        exact mem_le_foldl_bestStep xs x y hy
    · rw [← hbest2, ← hk']
      rw [show ((xs.foldl bestStep x).1, (xs.foldl bestStep x).2) =
        xs.foldl bestStep x from rfl]
      exact find?_foldl_bestStep xs x

/-- C4 witness: the theorem applied to the exact-tie mapping
{pm25: 80, pm10: 80}. -/
theorem aggregate_first_max_witness :
    (∀ y ∈ valid_subs tieSubs, y.2 ≤ 80) ∧
    (valid_subs tieSubs).find? (fun y => decide (y.2 = 80)) = some ("pm25", (80 : ℚ)) ∧
    aggregate tieSubs = (some 80, some "pm25") :=
  aggregate_first_max tieSubs 80 "pm25"
    (by simp [aggregate, tieSubs, valid_subs, listMax, List.filterMap])
    (by simp [aggregate, tieSubs, valid_subs, argmaxFirst, bestStep, List.filterMap])

theorem lookup_map_keys {β : Type} (ks : List String) (f : String → β)
    (hnd : ks.Nodup) (k : String) (b : β)
    (hmem : (k, b) ∈ ks.map fun a => (a, f a)) :
    (ks.map fun a => (a, f a)).lookup k = some b := by
  induction ks with
  | nil => cases hmem
  | cons a as ih =>
    rw [List.map_cons] at hmem ⊢
    rcases List.mem_cons.mp hmem with heq | hmem'
    · have h1 : k = a := congrArg Prod.fst heq
      have h2 : b = f a := congrArg Prod.snd heq
      subst h1
      subst h2
      simp [List.lookup]
    · have hkmem : k ∈ as := by
        rcases List.mem_map.mp hmem' with ⟨a', ha', heq'⟩
        have : a' = k := congrArg Prod.fst heq'
        rwa [← this]
      have hk : k ≠ a := by
        rintro rfl
        exact (List.nodup_cons.mp hnd).1 hkmem
      have hbeq : (k == a) = false := beq_eq_false_iff_ne.mpr hk
      rw [List.lookup, hbeq]
      exact ih (List.nodup_cons.mp hnd).2 hmem'

/-- C10: whenever the response's main pollutant is present, the reported
aqi equals the sub_aqi entry reported for it (re-rounding the rounded
maximum changes nothing), and the reported category is the category of that
same value, so the overall fields agree with the per-pollutant map. -/
theorem predict_overall_fields_consistent (inputs : ReadingSet) (k : String)
    (h : (predictAqiOut inputs).main_pollutant = some k) :
    ∃ v, (predictAqiOut inputs).aqi = some v ∧
      ((predictAqiOut inputs).sub_aqi).lookup k = some (some v) ∧
      (predictAqiOut inputs).aqi_category = some (aqi_category v) := by
  have hmain : (aggregate (sub_aqi_list inputs)).2 = some k := h
  cases hval : valid_subs (sub_aqi_list inputs) with
  | nil =>
    rw [show (aggregate (sub_aqi_list inputs)).2
        = (argmaxFirst (valid_subs (sub_aqi_list inputs))).map Prod.fst from rfl,
      hval] at hmain
    simp [argmaxFirst] at hmain
  | cons x xs =>
    have hk : (xs.foldl bestStep x).1 = k := by
      rw [show (aggregate (sub_aqi_list inputs)).2
          = (argmaxFirst (valid_subs (sub_aqi_list inputs))).map Prod.fst from rfl,
        hval] at hmain
      simpa [argmaxFirst] using hmain
    have hagg1 : (aggregate (sub_aqi_list inputs)).1 = some (xs.foldl bestStep x).2 := by
      rw [show (aggregate (sub_aqi_list inputs)).1
          = listMax ((valid_subs (sub_aqi_list inputs)).map Prod.snd) from rfl, hval]
      simp [listMax, foldl_bestStep_snd]
    have hbestmem : xs.foldl bestStep x ∈ valid_subs (sub_aqi_list inputs) := by
      rw [hval]
      exact foldl_bestStep_mem xs x
    have hval_round : ∃ u, (xs.foldl bestStep x).2 = round1 u := by
      have hy := hbestmem
      rw [sub_aqi_list_eq_map, valid_subs_map_round1] at hy
      rcases List.mem_map.mp hy with ⟨p, _, hpe⟩
      exact ⟨p.2, by rw [← hpe]⟩
    obtain ⟨u, hu⟩ := hval_round
    have hidem : round1 (xs.foldl bestStep x).2 = (xs.foldl bestStep x).2 := by
      rw [hu, round1_idem]
    have hmem2 : (k, some (xs.foldl bestStep x).2) ∈ sub_aqi_list inputs := by
      rcases List.mem_filterMap.mp hbestmem with ⟨p, hp, hpe⟩
      rcases p with ⟨k', o⟩
      rcases o with _ | w
      · simp at hpe
      · simp only [Option.map_some] at hpe
        obtain ⟨h1, h2⟩ := Prod.ext_iff.mp (Option.some.inj hpe)
        rw [← hk, ← h1, ← h2]
        exact hp
    refine ⟨(xs.foldl bestStep x).2, ?_, ?_, ?_⟩
    · show ((aggregate (sub_aqi_list inputs)).1).map round1 = _
      rw [hagg1]
      simp [hidem]
    · show (sub_aqi_list inputs).lookup k = _
      unfold sub_aqi_list
      refine lookup_map_keys POLLUTANTS _ (by decide) k _ ?_
      rw [show (POLLUTANTS.map fun a =>
        (a, (compute_sub_aqi a (readingGet inputs a)).map round1)) =
        sub_aqi_list inputs from rfl]
      exact hmem2
    · show ((aggregate (sub_aqi_list inputs)).1).map aqi_category = _
      rw [hagg1]
      rfl

/-- C10 witness: the theorem applied to the request carrying only
pm25 = 12, whose response has main pollutant pm25, aqi 50 and category
"Good". -/
theorem predict_overall_fields_consistent_witness :
    ∃ v, (predictAqiOut ({ pm25 := some 12 } : ReadingSet)).aqi = some v ∧
      ((predictAqiOut ({ pm25 := some 12 } : ReadingSet)).sub_aqi).lookup "pm25" =
        some (some v) ∧
      (predictAqiOut ({ pm25 := some 12 } : ReadingSet)).aqi_category =
        some (aqi_category v) :=
  predict_overall_fields_consistent ({ pm25 := some 12 } : ReadingSet) "pm25" (by
    have hsub : compute_sub_aqi "pm25" (some 12) = some 50 := by
      rw [compute_eval_of_lookup "pm25" pm25Bps (by simp [AQI_BREAKPOINTS, List.lookup])]
      norm_num [computeFromSegs, pm25Bps, linear_iaqi, List.find?]
    have hnone : ∀ k : String, compute_sub_aqi k none = none := fun _ => rfl
    have hround : round1 50 = 50 := by norm_num [round1, roundHalfEven]
    show (aggregate (sub_aqi_list ({ pm25 := some 12 } : ReadingSet))).2 = some "pm25"
    have hlist : sub_aqi_list ({ pm25 := some 12 } : ReadingSet) =
        [("pm25", some 50), ("pm10", none), ("no2", none), ("so2", none),
         ("co", none), ("o3", none)] := by
      simp [sub_aqi_list, POLLUTANTS, readingGet, hnone, hsub, hround]
    rw [hlist]
    simp [aggregate, valid_subs, argmaxFirst, List.filterMap])
